import Mathlib

/-!
Verification of the motion-video converter (`Scripts/converter.py`).

The Python source is shallowly embedded: numpy/OpenCV image buffers become
the `Frame` structure (a size-indexed pixel function), Python `float`
arithmetic is modelled by exact rationals (`ℚ`), Python `int(...)` by
truncation toward zero (`pyInt`), and the external collaborators of the
batch loop (image decoding, the video writer) by explicitly passed
functions.  Values produced by C library floats with no algebraic
specification (`np.sin`, `np.cos`, `np.pi`, Gaussian and Lanczos kernel
weights) are abstracted as parameters `sinQ cosQ piQ gaussW resizePx`:
every theorem below holds for all values of these parameters, and none of
the verified properties depends on them.
-/

namespace Converter

/-- Python `int(x)` applied to a float/rational: truncation toward zero. -/
def pyInt (q : ℚ) : ℤ := if 0 ≤ q then ⌊q⌋ else ⌈q⌉

/-- Shared by every effect (converter.py, e.g. line 38):
`progress = frame_idx / max(total_frames - 1, 1)`. -/
def progressOf (frame_idx total_frames : ℤ) : ℚ :=
  (frame_idx : ℚ) / ((max (total_frames - 1) 1 : ℤ) : ℚ)

/-- An image buffer: `rows × cols` pixels with `channels` color channels
(`channels = 1` stands for a 2-dimensional numpy array).  `px y x c` is the
value of channel `c` of the pixel at row `y`, column `x`. -/
@[ext]
structure Frame where
  rows : ℕ
  cols : ℕ
  channels : ℕ
  px : ℕ → ℕ → ℕ → ℕ

/-- Width and height of a frame, as the pair (width, height). -/
def Frame.dims (f : Frame) : ℕ × ℕ := (f.cols, f.rows)

/-! ## Segment composer (converter.py lines 376-391)

`segment_duration = total_frames / len(motion_types)` is Python float
division, modelled exactly over `ℚ`;
`current_segment = min(int(frame_idx / segment_duration), n - 1)`,
`segment_start = int(current_segment * segment_duration)`,
`segment_end = int((current_segment + 1) * segment_duration)`. -/
def segmentDuration (total_frames n : ℕ) : ℚ := (total_frames : ℚ) / (n : ℚ)

def currentSegment (total_frames n frame_idx : ℕ) : ℕ :=
  min (pyInt ((frame_idx : ℚ) / segmentDuration total_frames n)).toNat (n - 1)

def segmentStart (total_frames n s : ℕ) : ℕ :=
  (pyInt ((s : ℚ) * segmentDuration total_frames n)).toNat

def segmentEnd (total_frames n s : ℕ) : ℕ :=
  (pyInt (((s : ℚ) + 1) * segmentDuration total_frames n)).toNat

/-- `frame_in_segment = frame_idx - segment_start` (converter.py line 390). -/
def frameInSegment (total_frames n frame_idx : ℕ) : ℤ :=
  (frame_idx : ℤ) - segmentStart total_frames n (currentSegment total_frames n frame_idx)

/-- `frames_in_segment = segment_end - segment_start` (converter.py line 391). -/
def framesInSegment (total_frames n frame_idx : ℕ) : ℤ :=
  (segmentEnd total_frames n (currentSegment total_frames n frame_idx) : ℤ)
    - (segmentStart total_frames n (currentSegment total_frames n frame_idx) : ℤ)

/-! ## Motion plan normalization (converter.py lines 317-342)

`motion_types` is either a single string or a list; a list is truncated to
its first three entries (`list(motion_types)[:3]`), then entries that are
not keys of the `motion_functions` dict are filtered out, and an empty
result falls back to `['none']`. -/
/-- The keys of the `motion_functions` dict (converter.py lines 324-337). -/
def motionFunctionKeys : List String :=
  ["subtle", "ken-burns", "360-pan", "tilt-shift", "zoom-in", "zoom-out",
   "dolly-zoom", "wave", "radial-blur", "rotation", "flip", "none"]

/-- The `motion_types` argument: Python accepts a single string or a list. -/
inductive MotionTypesArg where
  | str (s : String)
  | list (l : List String)

/-- Lines 318-321: `[motion_types]` for a string, `list(motion_types)[:3]`
for a list. -/
def normalizedMotionTypes : MotionTypesArg → List String
  | .str s => [s]
  | .list l => l.take 3

/-- Line 340: `[mt for mt in motion_types if mt in motion_functions]`. -/
def filteredMotionTypes (arg : MotionTypesArg) : List String :=
  (normalizedMotionTypes arg).filter (fun mt => motionFunctionKeys.contains mt)

/-- Lines 340-342: keep only recognized keys; fall back to `['none']` when
nothing remains. -/
def effectiveMotionTypes (arg : MotionTypesArg) : List String :=
  if filteredMotionTypes arg = [] then ["none"] else filteredMotionTypes arg

/-! ## Quality presets (converter.py lines 13-19 and 304-307) -/
/-- The `QUALITY_PRESETS` dict: name ↦ (width, height, bitrate_factor). -/
def QUALITY_PRESETS (q : String) : Option (ℕ × ℕ × ℚ) :=
  if q = "4K" then some (3840, 2160, 3/2)
  else if q = "1080p" then some (1920, 1080, 1)
  else if q = "720p" then some (1280, 720, 7/10)
  else if q = "480p" then some (854, 480, 1/2)
  else if q = "360p" then some (640, 360, 3/10)
  else none

/-- Lines 304-305: `if quality not in QUALITY_PRESETS: quality = '1080p'`. -/
def effectiveQuality (q : String) : String :=
  if QUALITY_PRESETS q = none then "1080p" else q

/-- Lines 306-307: `width, height, _ = QUALITY_PRESETS[quality];
target_size = (width, height)`. -/
def targetSize (q : String) : ℕ × ℕ :=
  match QUALITY_PRESETS (effectiveQuality q) with
  | some (w, h, _) => (w, h)
  | none => (0, 0)

/-! ## Model of the OpenCV / NumPy primitives used by the effects

The effects call a handful of library routines.  Their geometry (output
sizes, index arithmetic, slicing, tiling, flipping) is modelled exactly;
their interpolated pixel values involve C `double` trigonometry and kernel
weights, which enter the model through the parameters `sinQ cosQ piQ
gaussW` (arbitrary rational-valued stand-ins for `np.sin`, `np.cos`,
`np.pi` and the Gaussian kernel). -/
/-- Modelled from OpenCV: a 2×3 affine matrix as produced by
`cv2.getRotationMatrix2D`. -/
structure Mat2x3 where
  m00 : ℚ
  m01 : ℚ
  m02 : ℚ
  m10 : ℚ
  m11 : ℚ
  m12 : ℚ

/-- Modelled from OpenCV: `cv2.BORDER_REFLECT` index folding
(`fedcba|abcdefgh|hgfedcb`), periodic with period `2n`. -/
def reflectIdx (n : ℕ) (i : ℤ) : ℕ :=
  if n = 0 then 0
  else
    let j := (i % (2 * n : ℕ)).toNat
    if j < n then j else 2 * n - 1 - j

/-- Read one channel of one pixel with BORDER_REFLECT handling. -/
def sampleReflect (img : Frame) (y x : ℤ) (c : ℕ) : ℕ :=
  img.px (reflectIdx img.rows y) (reflectIdx img.cols x) c

/-- Modelled from OpenCV: bilinear interpolation (`INTER_LINEAR`) at a
rational source coordinate, with BORDER_REFLECT for out-of-range reads. -/
def bilinearReflect (img : Frame) (xq yq : ℚ) (c : ℕ) : ℕ :=
  let x0 := ⌊xq⌋
  let y0 := ⌊yq⌋
  let fx := xq - x0
  let fy := yq - y0
  let v00 : ℚ := sampleReflect img y0 x0 c
  let v01 : ℚ := sampleReflect img y0 (x0 + 1) c
  let v10 : ℚ := sampleReflect img (y0 + 1) x0 c
  let v11 : ℚ := sampleReflect img (y0 + 1) (x0 + 1) c
  (round ((1 - fy) * ((1 - fx) * v00 + fx * v01)
      + fy * ((1 - fx) * v10 + fx * v11))).toNat

/-- Modelled from OpenCV: `cv2.warpAffine(img, M, dsize,
borderMode=cv2.BORDER_REFLECT)`; the output has size `dsize = (width,
height)` and each destination pixel samples the source at the preimage
under the affine map `M` (OpenCV inverts the forward map). -/
def warpAffine (img : Frame) (M : Mat2x3) (dsize : ℕ × ℕ) : Frame :=
  ⟨dsize.2, dsize.1, img.channels, fun y x c =>
    let det := M.m00 * M.m11 - M.m01 * M.m10
    let sx := (M.m11 * ((x : ℚ) - M.m02) - M.m01 * ((y : ℚ) - M.m12)) / det
    let sy := (M.m00 * ((y : ℚ) - M.m12) - M.m10 * ((x : ℚ) - M.m02)) / det
    bilinearReflect img sx sy c⟩

/-- Modelled from NumPy: `np.hstack([img, img, img])`. -/
def hstack3 (img : Frame) : Frame :=
  ⟨img.rows, 3 * img.cols, img.channels, fun y x c => img.px y (x % img.cols) c⟩

/-- Modelled from NumPy basic slicing `img[:, s:e]`: negative indices count
from the end, and both bounds are clipped to the array's extent. -/
def npSliceCols (img : Frame) (s e : ℤ) : Frame :=
  let w : ℤ := img.cols
  let s' := (if s < 0 then max (w + s) 0 else min s w).toNat
  let e' := (if e < 0 then max (w + e) 0 else min e w).toNat
  ⟨img.rows, e' - s', img.channels, fun y x c => img.px y (s' + x) c⟩

/-- Modelled from OpenCV: `cv2.flip(img, 1)` — horizontal mirror. -/
def cv2flip1 (img : Frame) : Frame :=
  ⟨img.rows, img.cols, img.channels, fun y x c => img.px y (img.cols - 1 - x) c⟩

/-! ## Concrete fixtures used by witnesses and counterexamples -/
/-- A concrete stand-in for the float trigonometric collaborators. -/
def zeroTrig : ℚ → ℚ := fun _ => 0

/-- A concrete stand-in for the Gaussian kernel weights. -/
def zeroKernel : ℤ → ℤ → ℚ := fun _ _ => 0

/-- A concrete 4×5 3-channel black frame (height 5). -/
def frameH5 : Frame := ⟨5, 4, 3, fun _ _ _ => 0⟩

/-- A concrete 1×1 3-channel black frame. -/
def frameUnit : Frame := ⟨1, 1, 3, fun _ _ _ => 0⟩

/-! ## Batch coordinator (converter.py lines 280-439)

The external collaborators are explicit: `decode` models
`read_image_with_fallback` together with the Pillow retry of lines 349-359
(`none` means every decode strategy failed, which the loop skips with
`continue`); `openWriter` and `writeFrame` model the `cv2.VideoWriter`
collaborator of lines 369-402, whose failures surface as exceptions
(`Except.error`); the loop body contains no handler, so such an error —
like any exception escaping an effect — aborts the whole call.  Wall-clock
values (`datetime.now`, file sizes) are outside the model and the
corresponding dict entries are omitted from `VideoInfo` and `RunMeta`. -/
/-- External collaborators of one batch run. -/
structure BatchEnv (ε : Type) where
  decode : String → Option Frame
  openWriter : String → Except ε Unit
  writeFrame : String → Frame → Except ε Unit

/-- An error aborting a batch run: an exception from the video writer, or
an exception escaping an effect function (`ZeroDivisionError`). -/
inductive BatchError (ε : Type) where
  | effectCrash
  | enc (e : ε)

/-- Modelled from OpenCV: `cv2.resize(img, target_size,
interpolation=cv2.INTER_LANCZOS4)`; the output has the target size and the
same channel count, with resampled pixel values given by the external
Lanczos kernel `resizePx`. -/
def cv2resize (resizePx : Frame → ℕ × ℕ → ℕ → ℕ → ℕ → ℕ) (img : Frame)
    (target_size : ℕ × ℕ) : Frame :=
  ⟨target_size.2, target_size.1, img.channels, fun y x c => resizePx img target_size y x c⟩

/-- converter.py lines 365-367: output file name from the source base name,
the joined effect identifiers and the quality tier. -/
def outputPath (base : String) (motion_types : List String) (quality : String) :
    String :=
  base ++ "_motion_" ++ String.intercalate "_" (motion_types.take 3) ++ "_"
    ++ quality ++ ".avi"

/-- One video-artifact record (converter.py lines 410-421, without the
wall-clock fields `size_mb` and `time_generated`). -/
structure VideoInfo where
  path : String
  filename : String
  duration_seconds : ℚ
  fps : ℕ
  quality : String
  resolution : ℕ × ℕ
  motion_effects : List String

/-- The run metadata dict (converter.py lines 432-439, without the
wall-clock timing fields). -/
structure RunMeta where
  videos_created : ℕ
  quality : String
  motion_effects : List String

/-- The shape of the value returned by
`create_video_per_image_with_motion`: line 311 returns a bare list, line
432 returns a (videos, metadata) pair. -/
inductive ConvReturn where
  | bare (videos : List VideoInfo)
  | pair (videos : List VideoInfo) (meta : RunMeta)

/-- Whether a return value is the (videos, metadata) pair shape that the
callers (app.py line 62, test_conversion.py line 31) unpack. -/
def ConvReturn.isPair : ConvReturn → Bool
  | .bare _ => false
  | .pair _ _ => true

/-- A concrete stand-in for the external Lanczos resampling weights. -/
def zeroResize : Frame → ℕ × ℕ → ℕ → ℕ → ℕ → ℕ := fun _ _ _ _ _ => 0

/-- A concrete environment whose writer cannot open the output stream:
decoding succeeds only for the path "good". -/
def envC2 : BatchEnv Unit where
  decode := fun s => if s = "good" then some frameUnit else none
  openWriter := fun _ => .error ()
  writeFrame := fun _ _ => .ok ()

/-- A concrete environment where every collaborator succeeds. -/
def envOk : BatchEnv Unit where
  decode := fun _ => some frameUnit
  openWriter := fun _ => .ok ()
  writeFrame := fun _ _ => .ok ()

/-- A concrete environment where the path "skipped" fails to decode and
every other collaborator call succeeds. -/
def envC4 : BatchEnv Unit where
  decode := fun s => if s = "skipped" then none else some frameUnit
  openWriter := fun _ => .ok ()
  writeFrame := fun _ _ => .ok ()

/-- The artifact record produced for the path "img1" in the C3 run. -/
def infoImg1 : VideoInfo :=
  { path := outputPath "img1" ["none"] (effectiveQuality "1080p"),
    filename := outputPath "img1" ["none"] (effectiveQuality "1080p"),
    duration_seconds := 1, fps := 1, quality := effectiveQuality "1080p",
    resolution := targetSize "1080p", motion_effects := ["none"] }

/-- The artifact record produced for the path "ok1" in the C4 run. -/
def infoOk1 : VideoInfo :=
  { path := outputPath "ok1" ["none"] (effectiveQuality "1080p"),
    filename := outputPath "ok1" ["none"] (effectiveQuality "1080p"),
    duration_seconds := 1, fps := 1, quality := effectiveQuality "1080p",
    resolution := targetSize "1080p", motion_effects := ["none"] }

section EffectLibrary

variable (sinQ cosQ : ℚ → ℚ) (piQ : ℚ) (gaussW : ℤ → ℤ → ℚ)

/-- Modelled from OpenCV: `cv2.getRotationMatrix2D(center, angle, scale)`
with `angle` in degrees; `alpha = scale*cos(angle·π/180)`,
`beta = scale*sin(angle·π/180)`. -/
def getRotationMatrix2D (center : ℚ × ℚ) (angle scale : ℚ) : Mat2x3 :=
  let α := scale * cosQ (angle * piQ / 180)
  let β := scale * sinQ (angle * piQ / 180)
  ⟨α, β, (1 - α) * center.1 - β * center.2,
   -β, α, β * center.1 + (1 - α) * center.2⟩

/-- Modelled from OpenCV: `cv2.GaussianBlur(img, (21, 21), 0)`; the 21×21
kernel weights (implementation floats) are the parameter `gaussW`. -/
def gaussianBlur (img : Frame) : Frame :=
  ⟨img.rows, img.cols, img.channels, fun y x c =>
    (round (((List.range 21).map (fun dy =>
      ((List.range 21).map (fun dx =>
        gaussW ((dy : ℤ) - 10) ((dx : ℤ) - 10)
          * (sampleReflect img ((y : ℤ) + (dy : ℤ) - 10) ((x : ℤ) + (dx : ℤ) - 10) c : ℚ))).sum)).sum)).toNat⟩

/-- converter.py lines 35-55: subtle zoom plus circular pan. -/
def apply_subtle_motion (img : Frame) (frame_idx total_frames : ℤ) : Frame :=
  let height := img.rows
  let width := img.cols
  let progress := progressOf frame_idx total_frames
  let zoom := 1 + 15 / 100 * progress
  let pan_x := pyInt (20 * sinQ (progress * piQ * 2))
  let pan_y := pyInt (15 * cosQ (progress * piQ * 2))
  let center : ℚ × ℚ := ((width / 2 : ℕ), (height / 2 : ℕ))
  let M0 := getRotationMatrix2D sinQ cosQ piQ center 0 zoom
  let M := { M0 with m02 := M0.m02 + pan_x, m12 := M0.m12 + pan_y }
  warpAffine img M (width, height)

/-- converter.py lines 57-75: Ken Burns zoom and pan. -/
def apply_ken_burns_effect (img : Frame) (frame_idx total_frames : ℤ) : Frame :=
  let height := img.rows
  let width := img.cols
  let progress := progressOf frame_idx total_frames
  let zoom := 1 + 3 / 10 * (progress ^ 2)
  let pan_x := pyInt (30 * sinQ (progress * piQ))
  let pan_y := pyInt (25 * (progress - 1 / 2))
  let center : ℚ × ℚ := ((width / 2 : ℕ), (height / 2 : ℕ))
  let M0 := getRotationMatrix2D sinQ cosQ piQ center 0 zoom
  let M := { M0 with m02 := M0.m02 + pan_x, m12 := M0.m12 + pan_y }
  warpAffine img M (width, height)

/-- converter.py lines 77-92: tile the frame three times horizontally and
slide a window of the original width across the tiled image. -/
def apply_360_pan_effect (img : Frame) (frame_idx total_frames : ℤ) : Frame :=
  let width := img.cols
  let progress := progressOf frame_idx total_frames
  let tiled := hstack3 img
  let tiled_width := tiled.cols
  let start_x := pyInt (((tiled_width - width : ℕ) : ℚ) * progress)
  npSliceCols tiled start_x (start_x + width)

/-- converter.py lines 94-119: zoom, then blend a Gaussian-blurred copy
with the sharp copy through a vertical focus mask.  When
`int(height*0.15) = 0` and either smoothing loop executes, the Python code
raises `ZeroDivisionError`, modelled as `none`. -/
def apply_tilt_shift_effect (img : Frame) (frame_idx total_frames : ℤ) :
    Option Frame :=
  let height := img.rows
  let width := img.cols
  let progress := progressOf frame_idx total_frames
  let zoom := 1 + 2 / 10 * progress
  let center : ℚ × ℚ := ((width / 2 : ℕ), (height / 2 : ℕ))
  let M := getRotationMatrix2D sinQ cosQ piQ center 0 zoom
  let transformed := warpAffine img M (width, height)
  let blurred := gaussianBlur gaussW transformed
  let focus_band := (pyInt ((height : ℚ) * (4 / 10))).toNat
  let band20 := (pyInt ((height : ℚ) * (2 / 10))).toNat
  let band15 := (pyInt ((height : ℚ) * (15 / 100))).toNat
  let band35 := (pyInt ((height : ℚ) * (35 / 100))).toNat
  if band15 = 0 ∧ (0 < focus_band ∨ focus_band + band20 < height) then none
  else
    let mask : ℕ → ℚ := fun y =>
      if y < focus_band then
        max 0 (((y : ℚ) - ((focus_band : ℚ) - (band15 : ℚ))) / (band15 : ℚ))
      else if y < focus_band + band20 then 1
      else max 0 ((((focus_band : ℚ) + (band35 : ℚ)) - (y : ℚ)) / (band15 : ℚ))
    some ⟨height, width, img.channels, fun y x c =>
      (pyInt ((transformed.px y x c : ℚ) * mask y
          + (blurred.px y x c : ℚ) * (1 - mask y))).toNat % 256⟩

/-- converter.py lines 158-169: linear zoom 1.0 → 2.0. -/
def apply_zoom_in_effect (img : Frame) (frame_idx total_frames : ℤ) : Frame :=
  let height := img.rows
  let width := img.cols
  let progress := progressOf frame_idx total_frames
  let zoom := 1 + 1 * progress
  let center : ℚ × ℚ := ((width / 2 : ℕ), (height / 2 : ℕ))
  let M := getRotationMatrix2D sinQ cosQ piQ center 0 zoom
  warpAffine img M (width, height)

/-- converter.py lines 171-182: linear zoom 1.2 → 1.0. -/
def apply_zoom_out_effect (img : Frame) (frame_idx total_frames : ℤ) : Frame :=
  let height := img.rows
  let width := img.cols
  let progress := progressOf frame_idx total_frames
  let zoom := 12 / 10 - 2 / 10 * progress
  let center : ℚ × ℚ := ((width / 2 : ℕ), (height / 2 : ℕ))
  let M := getRotationMatrix2D sinQ cosQ piQ center 0 zoom
  warpAffine img M (width, height)

/-- converter.py lines 184-201: oscillating zoom after a small oscillating
rotation, both about the frame center. -/
def apply_dolly_zoom_effect (img : Frame) (frame_idx total_frames : ℤ) : Frame :=
  let height := img.rows
  let width := img.cols
  let progress := progressOf frame_idx total_frames
  let zoom := 1 + 1 / 2 * sinQ (progress * piQ)
  let center : ℚ × ℚ := ((width / 2 : ℕ), (height / 2 : ℕ))
  let M := getRotationMatrix2D sinQ cosQ piQ center 0 zoom
  let angle := 5 * sinQ (progress * piQ * 2)
  let rotation_M := getRotationMatrix2D sinQ cosQ piQ center angle 1
  let transformed := warpAffine img rotation_M (width, height)
  warpAffine transformed M (width, height)

/-- converter.py lines 203-224: per-pixel sinusoidal displacement field,
sampled with `cv2.remap` (bilinear, BORDER_REFLECT) after `np.clip`. -/
def apply_wave_effect (img : Frame) (frame_idx total_frames : ℤ) : Frame :=
  let height := img.rows
  let width := img.cols
  let progress := progressOf frame_idx total_frames
  let wave_freq : ℚ := 1 / 100
  let wave_amp := 20 * progress
  ⟨height, width, img.channels, fun y x c =>
    let x_wave := (x : ℚ) + wave_amp * sinQ ((y : ℚ) * wave_freq + progress * piQ * 2)
    let y_wave := (y : ℚ) + wave_amp * cosQ ((x : ℚ) * wave_freq + progress * piQ * 2)
    let x_wave := min (max x_wave 0) ((width : ℚ) - 1)
    let y_wave := min (max y_wave 0) ((height : ℚ) - 1)
    bilinearReflect img x_wave y_wave c⟩

/-- converter.py lines 226-245: average `int(1+4*progress)`
progressively-zoomed copies with the original. -/
def apply_radial_blur_effect (img : Frame) (frame_idx total_frames : ℤ) : Frame :=
  let height := img.rows
  let width := img.cols
  let progress := progressOf frame_idx total_frames
  let center : ℚ × ℚ := ((width / 2 : ℕ), (height / 2 : ℕ))
  let blur_strength := (pyInt (1 + 4 * progress)).toNat
  ⟨height, width, img.channels, fun y x c =>
    let zoomedVals : List ℚ := (List.range blur_strength).map (fun i =>
      let scale := 1 + 5 / 100 * (i : ℚ)
      let M := getRotationMatrix2D sinQ cosQ piQ center 0 scale
      ((warpAffine img M (width, height)).px y x c : ℚ))
    (pyInt (((img.px y x c : ℚ) + zoomedVals.sum)
        / ((blur_strength : ℚ) + 1))).toNat % 256⟩

/-- converter.py lines 247-259: rotation by `360·progress` degrees. -/
def apply_rotation_effect (img : Frame) (frame_idx total_frames : ℤ) : Frame :=
  let height := img.rows
  let width := img.cols
  let progress := progressOf frame_idx total_frames
  let angle := 360 * progress
  let center : ℚ × ℚ := ((width / 2 : ℕ), (height / 2 : ℕ))
  let M := getRotationMatrix2D sinQ cosQ piQ center angle 1
  warpAffine img M (width, height)

/-- converter.py lines 261-278: horizontal mirror when `int(3·progress)` is
odd, then an oscillating zoom. -/
def apply_flip_effect (img : Frame) (frame_idx total_frames : ℤ) : Frame :=
  let height := img.rows
  let width := img.cols
  let progress := progressOf frame_idx total_frames
  let flips := (pyInt (progress * 3)).toNat
  let result := if flips % 2 = 1 then cv2flip1 img else img
  let zoom := 1 + 2 / 10 * sinQ (progress * piQ * 2)
  let center : ℚ × ℚ := ((width / 2 : ℕ), (height / 2 : ℕ))
  let M := getRotationMatrix2D sinQ cosQ piQ center 0 zoom
  warpAffine result M (width, height)

/-! ## Frame synthesizer (converter.py lines 373-402) -/
/-- The `motion_functions` dict (converter.py lines 324-337): a present key
maps to `some (some f)` for an effect function and to `some none` for the
`'none' : None` entry; an absent key is `none`.  Every effect is wrapped to
return `Option Frame` so that `apply_tilt_shift_effect`'s possible
`ZeroDivisionError` propagates. -/
def motion_functions (mt : String) :
    Option (Option (Frame → ℤ → ℤ → Option Frame)) :=
  if mt = "subtle" then some (some (fun img fi tf => some (apply_subtle_motion sinQ cosQ piQ img fi tf)))
  else if mt = "ken-burns" then some (some (fun img fi tf => some (apply_ken_burns_effect sinQ cosQ piQ img fi tf)))
  else if mt = "360-pan" then some (some (fun img fi tf => some (apply_360_pan_effect img fi tf)))
  else if mt = "tilt-shift" then some (some (apply_tilt_shift_effect sinQ cosQ piQ gaussW))
  else if mt = "zoom-in" then some (some (fun img fi tf => some (apply_zoom_in_effect sinQ cosQ piQ img fi tf)))
  else if mt = "zoom-out" then some (some (fun img fi tf => some (apply_zoom_out_effect sinQ cosQ piQ img fi tf)))
  else if mt = "dolly-zoom" then some (some (fun img fi tf => some (apply_dolly_zoom_effect sinQ cosQ piQ img fi tf)))
  else if mt = "wave" then some (some (fun img fi tf => some (apply_wave_effect sinQ cosQ piQ img fi tf)))
  else if mt = "radial-blur" then some (some (fun img fi tf => some (apply_radial_blur_effect sinQ cosQ piQ img fi tf)))
  else if mt = "rotation" then some (some (fun img fi tf => some (apply_rotation_effect sinQ cosQ piQ img fi tf)))
  else if mt = "flip" then some (some (fun img fi tf => some (apply_flip_effect sinQ cosQ piQ img fi tf)))
  else if mt = "none" then some none
  else none

/-- converter.py lines 397-400: collapse a 2-dimensional (grayscale) frame
via `cv2.COLOR_GRAY2BGR` (the gray value replicated on three channels) and
a 4-channel frame via `cv2.COLOR_BGRA2BGR` (the alpha channel dropped). -/
def ensureBGR (f : Frame) : Frame :=
  if f.channels = 1 then ⟨f.rows, f.cols, 3, fun y x _ => f.px y x 0⟩
  else if f.channels = 4 then ⟨f.rows, f.cols, 3, fun y x c => f.px y x c⟩
  else f

/-- converter.py line 402: `frame.astype(np.uint8)` — modulo-256 wrap. -/
def astypeU8 (f : Frame) : Frame :=
  ⟨f.rows, f.cols, f.channels, fun y x c => f.px y x c % 256⟩

/-- One iteration of the frame loop (converter.py lines 373-402): copy the
resized source, pick the segment's effect, apply it with the local index
and local total, normalize to 3 channels and to `uint8`.  `none` models an
exception escaping from the effect. -/
def synthFrame (motion_types : List String) (total_frames : ℕ) (img : Frame)
    (frame_idx : ℕ) : Option Frame :=
  let n := motion_types.length
  let current_segment := currentSegment total_frames n frame_idx
  let motion_type := motion_types.getD current_segment "none"
  let stepped : Option Frame :=
    match motion_functions sinQ cosQ piQ gaussW motion_type with
    | some (some motion_func) =>
        let segment_start := segmentStart total_frames n current_segment
        let segment_end := segmentEnd total_frames n current_segment
        motion_func img ((frame_idx : ℤ) - segment_start)
          ((segment_end : ℤ) - segment_start)
    | _ => some img
  stepped.map (fun f => astypeU8 (ensureBGR f))

/-- The writer's frame sequence: the loop `for frame_idx in
range(total_frames)` appends one synthesized frame per index, in order. -/
def frameLoop (motion_types : List String) (total_frames : ℕ) (img : Frame) :
    List (Option Frame) :=
  (List.range total_frames).foldl
    (fun written frame_idx =>
      written ++ [synthFrame sinQ cosQ piQ gaussW motion_types total_frames img frame_idx])
    []

end EffectLibrary

section Batch

variable {ε : Type} (env : BatchEnv ε)

variable (resizePx : Frame → ℕ × ℕ → ℕ → ℕ → ℕ → ℕ)

variable (sinQ cosQ : ℚ → ℚ) (piQ : ℚ) (gaussW : ℤ → ℤ → ℚ)

/-- converter.py lines 373-402: synthesize and write every frame in order;
an effect exception or a writer exception aborts the loop. -/
def writeFrames (path : String) (motion_types : List String)
    (total_frames : ℕ) (img : Frame) : Except (BatchError ε) Unit :=
  (List.range total_frames).foldlM
    (fun _ frame_idx =>
      match synthFrame sinQ cosQ piQ gaussW motion_types total_frames img frame_idx with
      | none => .error .effectCrash
      | some f =>
          match env.writeFrame path f with
          | .error e => .error (.enc e)
          | .ok _ => .ok ())
    ()

/-- converter.py lines 361-423: the body of the per-image loop after a
successful decode — resize, open the writer, write all frames, record the
artifact.  There is no exception handler here: writer and effect errors
propagate. -/
def processImage (motion_types : List String) (target_size : ℕ × ℕ)
    (total_frames : ℕ) (quality : String) (video_duration : ℚ) (fps : ℕ)
    (img_path : String) (img0 : Frame) : Except (BatchError ε) VideoInfo :=
  let img := cv2resize resizePx img0 target_size
  let path := outputPath img_path motion_types quality
  match env.openWriter path with
  | .error e => .error (.enc e)
  | .ok _ =>
      match writeFrames env sinQ cosQ piQ gaussW path motion_types total_frames img with
      | .error e => .error e
      | .ok _ => .ok
          { path := path, filename := path, duration_seconds := video_duration,
            fps := fps, quality := quality, resolution := target_size,
            motion_effects := motion_types }

/-- One iteration of the image loop (converter.py lines 346-427): a decode
failure is skipped (`continue`); on success the image is processed and
afterwards the progress callback is invoked with
`(img_idx + 1, total_images)` — the accumulator collects the artifact list
and the list of callback invocations. -/
def batchStep (motion_types : List String) (target_size : ℕ × ℕ)
    (total_frames : ℕ) (quality : String) (video_duration : ℚ) (fps : ℕ)
    (total_images : ℕ)
    (acc : List VideoInfo × List (ℕ × ℕ)) (item : ℕ × String) :
    Except (BatchError ε) (List VideoInfo × List (ℕ × ℕ)) :=
  match env.decode item.2 with
  | none => .ok acc
  | some img0 =>
      match processImage env resizePx sinQ cosQ piQ gaussW motion_types
          target_size total_frames quality video_duration fps item.2 img0 with
      | .error e => .error e
      | .ok info => .ok (acc.1 ++ [info], acc.2 ++ [(item.1 + 1, total_images)])

/-- converter.py lines 280-439, `create_video_per_image_with_motion`, with
the image enumeration passed in (`collect_images` is an external
collaborator).  The second component of the result is the sequence of
progress-callback invocations.  Line 311: an empty image list returns the
bare `[]` immediately (before any plan normalization), with no metadata. -/
def create_video_embed (images : List String) (motion_types_arg : MotionTypesArg)
    (video_duration : ℚ) (fps : ℕ) (quality_arg : String) :
    Except (BatchError ε) (ConvReturn × List (ℕ × ℕ)) :=
  let quality := effectiveQuality quality_arg
  let target_size := targetSize quality_arg
  if images = [] then .ok (.bare [], [])
  else
    let total_images := images.length
    let total_frames := (pyInt (video_duration * (fps : ℚ))).toNat
    let motion_types := effectiveMotionTypes motion_types_arg
    match images.enum.foldlM
        (batchStep env resizePx sinQ cosQ piQ gaussW motion_types target_size
          total_frames quality video_duration fps total_images)
        ([], []) with
    | .error e => .error e
    | .ok (created_videos, calls) =>
        .ok (.pair created_videos
          { videos_created := created_videos.length, quality := quality,
            motion_effects := motion_types }, calls)

end Batch

theorem pyInt_of_nonneg {q : ℚ} (h : 0 ≤ q) : pyInt q = ⌊q⌋ := by
  simp [pyInt, h]

theorem pyInt_natCast_div (a b : ℕ) : pyInt ((a : ℚ) / (b : ℚ)) = (a / b : ℕ) := by
  rw [pyInt_of_nonneg (by positivity)]
  rw [show ((a : ℚ) / (b : ℚ)) = ((a : ℤ) : ℚ) / ((b : ℕ) : ℚ) by push_cast; ring]
  rw [Rat.floor_intCast_div_natCast]
  norm_cast

theorem pyInt_natCast_div_toNat (a b : ℕ) : (pyInt ((a : ℚ) / (b : ℚ))).toNat = a / b := by
  rw [pyInt_natCast_div]
  exact Int.toNat_natCast _

theorem currentSegment_eq (total_frames n frame_idx : ℕ) :
    currentSegment total_frames n frame_idx =
      min (frame_idx * n / total_frames) (n - 1) := by
  unfold currentSegment segmentDuration
  rw [div_div_eq_mul_div]
  rw [show ((frame_idx : ℚ) * n) = ((frame_idx * n : ℕ) : ℚ) by push_cast; ring]
  rw [pyInt_natCast_div_toNat]

theorem segmentStart_eq (total_frames n s : ℕ) :
    segmentStart total_frames n s = s * total_frames / n := by
  unfold segmentStart segmentDuration
  rw [mul_div_assoc']
  rw [show ((s : ℚ) * total_frames) = ((s * total_frames : ℕ) : ℚ) by push_cast; ring]
  rw [pyInt_natCast_div_toNat]

theorem segmentEnd_eq (total_frames n s : ℕ) :
    segmentEnd total_frames n s = (s + 1) * total_frames / n := by
  unfold segmentEnd segmentDuration
  rw [mul_div_assoc']
  rw [show (((s : ℚ) + 1) * total_frames) = (((s + 1) * total_frames : ℕ) : ℚ) by
    push_cast; ring]
  rw [pyInt_natCast_div_toNat]

theorem segmentStart_mono (total_frames n : ℕ) {s s' : ℕ} (h : s ≤ s') :
    segmentStart total_frames n s ≤ segmentStart total_frames n s' := by
  rw [segmentStart_eq, segmentStart_eq]
  exact Nat.div_le_div_right (Nat.mul_le_mul_right _ h)

theorem segmentStart_self (total_frames n : ℕ) (hn : 1 ≤ n) :
    segmentStart total_frames n n = total_frames := by
  rw [segmentStart_eq, Nat.mul_div_cancel_left _ hn]

theorem segmentEnd_eq_segmentStart_succ (total_frames n s : ℕ) :
    segmentEnd total_frames n s = segmentStart total_frames n (s + 1) := by
  rw [segmentStart_eq, segmentEnd_eq]

theorem exists_step_interval (a : ℕ → ℕ) (n i : ℕ) (h0 : a 0 = 0) (hi : i < a n) :
    ∃ s, s < n ∧ a s ≤ i ∧ i < a (s + 1) := by
  induction n with
  | zero => omega
  | succ m ih =>
    by_cases h : a m ≤ i
    · exact ⟨m, Nat.lt_succ_self m, h, hi⟩
    · obtain ⟨s, hs, h1, h2⟩ := ih (by omega)
      exact ⟨s, by omega, h1, h2⟩

theorem segment_cover_unique (total_frames n : ℕ) (hn : 1 ≤ n) (i : ℕ)
    (hi : i < total_frames) :
    ∃! s, s < n ∧ segmentStart total_frames n s ≤ i ∧ i < segmentEnd total_frames n s := by
  have hstart0 : segmentStart total_frames n 0 = 0 := by
    rw [segmentStart_eq]; simp
  obtain ⟨s, hsn, h1, h2⟩ :=
    exists_step_interval (segmentStart total_frames n) n i hstart0
      (by rw [segmentStart_self total_frames n hn]; exact hi)
  refine ⟨s, ⟨hsn, h1, by rw [segmentEnd_eq_segmentStart_succ]; exact h2⟩, ?_⟩
  rintro s' ⟨hs'n, h1', h2'⟩
  rw [segmentEnd_eq_segmentStart_succ] at h2'
  by_contra hne
  rcases Nat.lt_or_ge s' s with hlt | hge
  · have := segmentStart_mono total_frames n (show s' + 1 ≤ s by omega)
    omega
  · have hlt : s < s' := by omega
    have := segmentStart_mono total_frames n (show s + 1 ≤ s' by omega)
    omega

theorem currentSegment_lt (total_frames n frame_idx : ℕ) (hn : 1 ≤ n) :
    currentSegment total_frames n frame_idx < n := by
  rw [currentSegment_eq]
  omega

theorem segmentStart_currentSegment_le (total_frames n i : ℕ) (hn : 1 ≤ n) :
    segmentStart total_frames n (currentSegment total_frames n i) ≤ i := by
  rw [currentSegment_eq, segmentStart_eq]
  have h1 : min (i * n / total_frames) (n - 1) * total_frames ≤ i * n := by
    calc min (i * n / total_frames) (n - 1) * total_frames
        ≤ i * n / total_frames * total_frames :=
          Nat.mul_le_mul_right _ (Nat.min_le_left _ _)
      _ ≤ i * n := Nat.div_mul_le_self _ _
  calc min (i * n / total_frames) (n - 1) * total_frames / n
      ≤ i * n / n := Nat.div_le_div_right h1
    _ = i := Nat.mul_div_cancel _ hn

theorem le_segmentEnd_currentSegment (total_frames n i : ℕ) (hn : 1 ≤ n)
    (ht : 1 ≤ total_frames) (hi : i < total_frames) :
    i ≤ segmentEnd total_frames n (currentSegment total_frames n i) := by
  rw [currentSegment_eq, segmentEnd_eq]
  rcases le_or_lt (i * n / total_frames) (n - 1) with hle | hgt
  · rw [min_eq_left hle]
    rw [Nat.le_div_iff_mul_le hn]
    have hdm := Nat.div_add_mod (i * n) total_frames
    have hmlt : (i * n) % total_frames < total_frames := Nat.mod_lt _ ht
    nlinarith [Nat.div_add_mod (i * n) total_frames]
  · rw [min_eq_right (Nat.le_of_lt hgt)]
    have : (n - 1 + 1) * total_frames / n = total_frames := by
      rw [Nat.sub_add_cancel hn, Nat.mul_div_cancel_left _ hn]
    omega

theorem div_add_div_le (a b c : ℕ) : a / c + b / c ≤ (a + b) / c := by
  rcases Nat.eq_zero_or_pos c with rfl | hc
  · simp
  · rw [Nat.le_div_iff_mul_le hc, Nat.add_mul]
    exact Nat.add_le_add (Nat.div_mul_le_self _ _) (Nat.div_mul_le_self _ _)

theorem segmentEnd_sub_segmentStart_pos (total_frames n s : ℕ) (hn : 1 ≤ n)
    (hnt : n ≤ total_frames) :
    segmentStart total_frames n s < segmentEnd total_frames n s := by
  rw [segmentStart_eq, segmentEnd_eq]
  have h1 : 1 ≤ total_frames / n := (Nat.one_le_div_iff hn).mpr hnt
  have h2 : s * total_frames / n + total_frames / n ≤ (s + 1) * total_frames / n := by
    have := div_add_div_le (s * total_frames) total_frames n
    rwa [show (s + 1) * total_frames = s * total_frames + total_frames by ring]
  omega

/-- The claim C1 holds after two amendments: the local index
`frame_in_segment` lies in the closed interval `[0, frames_in_segment]`
(it can equal `frames_in_segment` when `n` does not divide `total_frames`,
see the counterexample), and `frames_in_segment ≥ 1` only under the extra
hypothesis `n ≤ total_frames` (for `total_frames < n` a segment can be
empty).  Everything else in the claim is proved as stated: the assignment
formula `s = min(floor(i/(total_frames/n)), n-1)` (over exact rationals this
floor equals `i*n/total_frames`), the boundary formulas, the exact
partition of `[0, total_frames)` with no gaps and no overlaps, and that the
last segment's end equals `total_frames`. -/
theorem C1_segment_partition (total_frames n : ℕ) (ht : 1 ≤ total_frames)
    (hn : 1 ≤ n) (hn3 : n ≤ 3) :
    (∀ i, i < total_frames →
      currentSegment total_frames n i = min (i * n / total_frames) (n - 1)) ∧
    segmentStart total_frames n 0 = 0 ∧
    segmentEnd total_frames n (n - 1) = total_frames ∧
    (∀ s, s + 1 < n → segmentEnd total_frames n s = segmentStart total_frames n (s + 1)) ∧
    (∀ i, i < total_frames →
      ∃! s, s < n ∧ segmentStart total_frames n s ≤ i ∧ i < segmentEnd total_frames n s) ∧
    (∀ i, i < total_frames →
      currentSegment total_frames n i < n ∧
      0 ≤ frameInSegment total_frames n i ∧
      frameInSegment total_frames n i ≤ framesInSegment total_frames n i) ∧
    (n ≤ total_frames → ∀ i, i < total_frames → 1 ≤ framesInSegment total_frames n i) := by
  refine ⟨fun i _ => currentSegment_eq total_frames n i, ?_, ?_, ?_, ?_, ?_, ?_⟩
  · rw [segmentStart_eq]; simp
  · rw [segmentEnd_eq, Nat.sub_add_cancel hn, Nat.mul_div_cancel_left _ hn]
  · exact fun s _ => segmentEnd_eq_segmentStart_succ total_frames n s
  · exact fun i hi => segment_cover_unique total_frames n hn i hi
  · intro i hi
    have hs := segmentStart_currentSegment_le total_frames n i hn
    have he := le_segmentEnd_currentSegment total_frames n i hn ht hi
    refine ⟨currentSegment_lt total_frames n i hn, ?_, ?_⟩
    · unfold frameInSegment; omega
    · unfold frameInSegment framesInSegment; omega
  · intro hnt i _
    have := segmentEnd_sub_segmentStart_pos total_frames n
      (currentSegment total_frames n i) hn hnt
    unfold framesInSegment; omega

/-- Witness for C1_segment_partition: the hypotheses are satisfied at
`total_frames = 5`, `n = 3`. -/
theorem C1_segment_partition_witness :
    (∀ i, i < 5 → currentSegment 5 3 i = min (i * 3 / 5) 2) ∧
    segmentStart 5 3 0 = 0 ∧
    segmentEnd 5 3 2 = 5 ∧
    (∀ s, s + 1 < 3 → segmentEnd 5 3 s = segmentStart 5 3 (s + 1)) ∧
    (∀ i, i < 5 → ∃! s, s < 3 ∧ segmentStart 5 3 s ≤ i ∧ i < segmentEnd 5 3 s) ∧
    (∀ i, i < 5 →
      currentSegment 5 3 i < 3 ∧
      0 ≤ frameInSegment 5 3 i ∧
      frameInSegment 5 3 i ≤ framesInSegment 5 3 i) ∧
    (3 ≤ 5 → ∀ i, i < 5 → 1 ≤ framesInSegment 5 3 i) :=
  C1_segment_partition 5 3 (by decide) (by decide) (by decide)

/-- Counterexample refuting C1 as stated: at `total_frames = 5`, `n = 3`,
frame 1 is assigned segment 0 whose range is `[0, 1)`, so its local index 1
is NOT in `[0, frames_in_segment) = [0, 1)`; and at `total_frames = 2`,
`n = 3`, segment 0 is empty (`frames_in_segment = 0 < 1`). -/
theorem C1_counterexample :
    currentSegment 5 3 1 = 0 ∧ segmentStart 5 3 0 = 0 ∧ segmentEnd 5 3 0 = 1 ∧
    frameInSegment 5 3 1 = 1 ∧ framesInSegment 5 3 1 = 1 ∧
    (¬ frameInSegment 5 3 1 < framesInSegment 5 3 1) ∧
    framesInSegment 2 3 0 = 0 := by
  have h1 : currentSegment 5 3 1 = 0 := by rw [currentSegment_eq]; decide
  have h2 : currentSegment 2 3 0 = 0 := by rw [currentSegment_eq]; decide
  have h3 : segmentStart 5 3 0 = 0 := by rw [segmentStart_eq]
  have h4 : segmentEnd 5 3 0 = 1 := by rw [segmentEnd_eq]
  have h5 : segmentStart 2 3 0 = 0 := by rw [segmentStart_eq]
  have h6 : segmentEnd 2 3 0 = 0 := by rw [segmentEnd_eq]
  refine ⟨h1, h3, h4, ?_, ?_, ?_, ?_⟩ <;>
    simp [frameInSegment, framesInSegment, h1, h2, h3, h4, h5, h6]

/-- Claim C5: the effective motion plan has length at most 3, contains only
recognized effect identifiers, falls back to `["none"]` exactly when the
truncated input has no recognized identifier, `["foo", "zoom-in", "bar"]`
yields `["zoom-in"]`, and five valid names yield the first three. -/
theorem C5_effective_plan (arg : MotionTypesArg) :
    (effectiveMotionTypes arg).length ≤ 3 ∧
    (∀ mt ∈ effectiveMotionTypes arg, mt ∈ motionFunctionKeys) ∧
    (filteredMotionTypes arg = [] → effectiveMotionTypes arg = ["none"]) ∧
    effectiveMotionTypes (.list ["foo", "zoom-in", "bar"]) = ["zoom-in"] ∧
    effectiveMotionTypes
        (.list ["subtle", "wave", "flip", "zoom-in", "rotation"]) =
      ["subtle", "wave", "flip"] := by
  refine ⟨?_, ?_, ?_, by decide, by decide⟩
  · unfold effectiveMotionTypes
    split
    · decide
    · calc (filteredMotionTypes arg).length
          ≤ (normalizedMotionTypes arg).length := List.length_filter_le _ _
        _ ≤ 3 := by
            cases arg with
            | str s => simp [normalizedMotionTypes]
            | list l => exact List.length_take_le 3 l
  · intro mt hmt
    unfold effectiveMotionTypes at hmt
    split at hmt
    · simp at hmt
      simp [hmt, motionFunctionKeys]
    · have := List.of_mem_filter hmt
      simpa using this
  · intro h
    unfold effectiveMotionTypes
    simp only [h, if_pos]

/-- Claim C10: truncation to the first three entries happens before the
validity filter, so a list whose first three entries are all unrecognized
yields `["none"]` even when later entries are valid. -/
theorem C10_truncate_before_filter (l : List String)
    (h : ∀ mt ∈ l.take 3, mt ∉ motionFunctionKeys) :
    effectiveMotionTypes (.list l) = ["none"] ∧
    effectiveMotionTypes (.list ["foo", "bar", "baz", "zoom-in", "wave"]) =
      ["none"] := by
  constructor
  · have hf : filteredMotionTypes (.list l) = [] := by
      unfold filteredMotionTypes normalizedMotionTypes
      rw [List.filter_eq_nil_iff]
      intro mt hmt
      simpa using h mt hmt
    unfold effectiveMotionTypes
    simp only [hf, if_pos]
  · decide

/-- Witness for C10_truncate_before_filter: the hypothesis is satisfied at
the list `["foo", "bar", "baz", "zoom-in", "wave"]`, whose first three
entries are all unrecognized. -/
theorem C10_truncate_before_filter_witness :
    effectiveMotionTypes (.list ["foo", "bar", "baz", "zoom-in", "wave"]) =
      ["none"] ∧
    effectiveMotionTypes (.list ["foo", "bar", "baz", "zoom-in", "wave"]) =
      ["none"] :=
  C10_truncate_before_filter ["foo", "bar", "baz", "zoom-in", "wave"] (by decide)

/-- Claim C8: an unrecognized quality name is silently replaced by "1080p",
whose target resolution is 1920×1080. -/
theorem C8_quality_fallback (q : String) (h : QUALITY_PRESETS q = none) :
    effectiveQuality q = "1080p" ∧ targetSize q = (1920, 1080) := by
  have he : effectiveQuality q = "1080p" := by simp [effectiveQuality, h]
  refine ⟨he, ?_⟩
  unfold targetSize
  rw [he]
  decide

/-- Witness for C8_quality_fallback at the concrete quality name
"doesnotexist" used by the spec's test case. -/
theorem C8_quality_fallback_witness :
    effectiveQuality "doesnotexist" = "1080p" ∧
    targetSize "doesnotexist" = (1920, 1080) :=
  C8_quality_fallback "doesnotexist" (by decide)

theorem pyInt_zero : pyInt 0 = 0 := by
  rw [pyInt_of_nonneg le_rfl]
  exact Int.floor_zero

theorem pyInt_nonneg {q : ℚ} (h : 0 ≤ q) : 0 ≤ pyInt q := by
  rw [pyInt_of_nonneg h]
  exact Int.floor_nonneg.mpr h

theorem pyInt_le_natCast {q : ℚ} {n : ℕ} (h : q ≤ (n : ℚ)) : pyInt q ≤ (n : ℤ) := by
  unfold pyInt
  split
  · calc ⌊q⌋ ≤ ⌊(n : ℚ)⌋ := Int.floor_le_floor h
      _ = n := Int.floor_natCast n
  · have hq : q < 0 := by linarith [not_le.mp (by assumption)]
    calc ⌈q⌉ ≤ (0 : ℤ) := Int.ceil_le.mpr (by exact_mod_cast le_of_lt hq)
      _ ≤ (n : ℤ) := Int.natCast_nonneg n

theorem one_le_pyInt {q : ℚ} (h : 1 ≤ q) : 1 ≤ pyInt q := by
  rw [pyInt_of_nonneg (by linarith)]
  exact Int.le_floor.mpr (by exact_mod_cast h)

theorem max_sub_one_pos (tf : ℤ) : (0 : ℚ) < ((max (tf - 1) 1 : ℤ) : ℚ) := by
  have : (1 : ℤ) ≤ max (tf - 1) 1 := le_max_right _ _
  exact_mod_cast lt_of_lt_of_le Int.zero_lt_one this

theorem progressOf_nonneg {frame_idx total_frames : ℤ} (h0 : 0 ≤ frame_idx) :
    0 ≤ progressOf frame_idx total_frames := by
  unfold progressOf
  exact div_nonneg (by exact_mod_cast h0) (le_of_lt (max_sub_one_pos total_frames))

theorem progressOf_le_one {frame_idx total_frames : ℤ}
    (h2 : frame_idx < total_frames) :
    progressOf frame_idx total_frames ≤ 1 := by
  unfold progressOf
  rw [div_le_one (max_sub_one_pos total_frames)]
  have h3 : frame_idx ≤ max (total_frames - 1) 1 := le_trans (by omega) (le_max_left _ _)
  exact_mod_cast h3

theorem npSliceCols_rows (img : Frame) (s e : ℤ) :
    (npSliceCols img s e).rows = img.rows := rfl

theorem npSliceCols_cols_of_bounds (img : Frame) {s : ℤ} (len : ℕ) (hs : 0 ≤ s)
    (he : s + len ≤ (img.cols : ℤ)) :
    (npSliceCols img s (s + len)).cols = len := by
  unfold npSliceCols
  simp only
  rw [if_neg (by omega), if_neg (by omega)]
  have h1 : min s (img.cols : ℤ) = s := min_eq_left (by omega)
  have h2 : min (s + len) (img.cols : ℤ) = s + len := min_eq_left he
  rw [h1, h2]
  omega

theorem apply_360_pan_dims (img : Frame) {frame_idx total_frames : ℤ}
    (h0 : 0 ≤ frame_idx) (h2 : frame_idx < total_frames) :
    (apply_360_pan_effect img frame_idx total_frames).dims = img.dims := by
  have hp0 : 0 ≤ progressOf frame_idx total_frames := progressOf_nonneg h0
  have hp1 : progressOf frame_idx total_frames ≤ 1 := progressOf_le_one h2
  simp only [apply_360_pan_effect]
  have hc : (hstack3 img).cols = 3 * img.cols := rfl
  have hsub : (hstack3 img).cols - img.cols = 2 * img.cols := by rw [hc]; omega
  rw [hsub]
  set sx := pyInt (((2 * img.cols : ℕ) : ℚ) * progressOf frame_idx total_frames) with hsx
  have hs0 : 0 ≤ sx := pyInt_nonneg (by positivity)
  have hs2 : sx ≤ ((2 * img.cols : ℕ) : ℤ) :=
    pyInt_le_natCast (by
      calc ((2 * img.cols : ℕ) : ℚ) * progressOf frame_idx total_frames
          ≤ ((2 * img.cols : ℕ) : ℚ) * 1 := by
            exact mul_le_mul_of_nonneg_left hp1 (by positivity)
        _ = ((2 * img.cols : ℕ) : ℚ) := mul_one _)
  unfold Frame.dims
  rw [npSliceCols_rows]
  rw [npSliceCols_cols_of_bounds (hstack3 img) img.cols hs0
    (by rw [hc]; push_cast at hs2 ⊢; omega)]
  rfl

theorem tilt_band_arg_eq (h a b : ℕ) :
    (h : ℚ) * ((a : ℚ) / (b : ℚ)) = ((a * h : ℕ) : ℚ) / ((b : ℕ) : ℚ) := by
  push_cast
  ring

theorem apply_tilt_shift_some (sinQ cosQ : ℚ → ℚ) (piQ : ℚ) (gaussW : ℤ → ℤ → ℚ)
    (img : Frame) (frame_idx total_frames : ℤ)
    (hok : img.rows = 0 ∨ 7 ≤ img.rows) :
    ∃ out, apply_tilt_shift_effect sinQ cosQ piQ gaussW img frame_idx total_frames
        = some out ∧ out.dims = img.dims := by
  simp only [apply_tilt_shift_effect]
  rw [if_neg ?hguard]
  case hguard =>
    rcases hok with h0 | h7
    · rw [h0]
      intro hand
      rcases hand with ⟨_, hor⟩
      have e4 : (pyInt ((0 : ℕ) * ((4 : ℚ) / 10))).toNat = 0 := by
        norm_num [pyInt_zero]
      have e2 : (pyInt ((0 : ℕ) * ((2 : ℚ) / 10))).toNat = 0 := by
        norm_num [pyInt_zero]
      rw [Nat.cast_zero] at hor
      rcases hor with hlt | hlt <;> simp [pyInt_zero] at hlt
    · intro hand
      have hge : (1 : ℚ) ≤ (img.rows : ℚ) * ((15 : ℚ) / 100) := by
        have h7q : (7 : ℚ) ≤ (img.rows : ℚ) := by exact_mod_cast h7
        nlinarith
      have h15 : 1 ≤ pyInt ((img.rows : ℚ) * (15 / 100)) := one_le_pyInt hge
      have : (pyInt ((img.rows : ℚ) * (15 / 100))).toNat ≠ 0 := by omega
      exact this hand.1
  exact ⟨_, rfl, rfl⟩

theorem apply_tilt_shift_crash (sinQ cosQ : ℚ → ℚ) (piQ : ℚ) (gaussW : ℤ → ℤ → ℚ)
    (img : Frame) (frame_idx total_frames : ℤ)
    (hlo : 1 ≤ img.rows) (hhi : img.rows ≤ 6) :
    apply_tilt_shift_effect sinQ cosQ piQ gaussW img frame_idx total_frames = none := by
  simp only [apply_tilt_shift_effect]
  rw [if_pos ?hguard]
  case hguard =>
    have e15 : (pyInt ((img.rows : ℚ) * (15 / 100))).toNat = 15 * img.rows / 100 := by
      rw [show ((img.rows : ℚ) * (15 / 100)) = ((15 * img.rows : ℕ) : ℚ) / ((100 : ℕ) : ℚ) by
        push_cast; ring]
      rw [pyInt_natCast_div_toNat]
    have e4 : (pyInt ((img.rows : ℚ) * (4 / 10))).toNat = 4 * img.rows / 10 := by
      rw [show ((img.rows : ℚ) * (4 / 10)) = ((4 * img.rows : ℕ) : ℚ) / ((10 : ℕ) : ℚ) by
        push_cast; ring]
      rw [pyInt_natCast_div_toNat]
    have e2 : (pyInt ((img.rows : ℚ) * (2 / 10))).toNat = 2 * img.rows / 10 := by
      rw [show ((img.rows : ℚ) * (2 / 10)) = ((2 * img.rows : ℕ) : ℚ) / ((10 : ℕ) : ℚ) by
        push_cast; ring]
      rw [pyInt_natCast_div_toNat]
    rw [e15, e4, e2]
    interval_cases h : img.rows <;> simp_all

/-- The claim C6 holds for ten of the eleven effects exactly as stated;
for `apply_tilt_shift_effect` it must be amended: the effect preserves
dimensions only when the frame height is 0 or at least 7, because for
heights 1-6 the Python mask-smoothing loops divide by
`int(height*0.15) = 0` and the call raises `ZeroDivisionError` (modelled
here as `none`), so no output frame exists at all. -/
theorem C6_effect_dims (sinQ cosQ : ℚ → ℚ) (piQ : ℚ) (gaussW : ℤ → ℤ → ℚ)
    (img : Frame) (frame_idx total_frames : ℤ)
    (h1 : 1 ≤ total_frames) (h0 : 0 ≤ frame_idx) (h2 : frame_idx < total_frames) :
    (apply_subtle_motion sinQ cosQ piQ img frame_idx total_frames).dims = img.dims ∧
    (apply_ken_burns_effect sinQ cosQ piQ img frame_idx total_frames).dims = img.dims ∧
    (apply_360_pan_effect img frame_idx total_frames).dims = img.dims ∧
    ((img.rows = 0 ∨ 7 ≤ img.rows) →
      ∃ out, apply_tilt_shift_effect sinQ cosQ piQ gaussW img frame_idx total_frames
          = some out ∧ out.dims = img.dims) ∧
    (1 ≤ img.rows → img.rows ≤ 6 →
      apply_tilt_shift_effect sinQ cosQ piQ gaussW img frame_idx total_frames = none) ∧
    (apply_zoom_in_effect sinQ cosQ piQ img frame_idx total_frames).dims = img.dims ∧
    (apply_zoom_out_effect sinQ cosQ piQ img frame_idx total_frames).dims = img.dims ∧
    (apply_dolly_zoom_effect sinQ cosQ piQ img frame_idx total_frames).dims = img.dims ∧
    (apply_wave_effect sinQ cosQ piQ img frame_idx total_frames).dims = img.dims ∧
    (apply_radial_blur_effect sinQ cosQ piQ img frame_idx total_frames).dims = img.dims ∧
    (apply_rotation_effect sinQ cosQ piQ img frame_idx total_frames).dims = img.dims ∧
    (apply_flip_effect sinQ cosQ piQ img frame_idx total_frames).dims = img.dims := by
  refine ⟨rfl, rfl, apply_360_pan_dims img h0 h2,
    fun hok => apply_tilt_shift_some sinQ cosQ piQ gaussW img frame_idx total_frames hok,
    fun hlo hhi => apply_tilt_shift_crash sinQ cosQ piQ gaussW img frame_idx total_frames hlo hhi,
    rfl, rfl, rfl, rfl, rfl, rfl, rfl⟩

/-- Witness for C6_effect_dims: the hypotheses are satisfied at the frame
`frameUnit` with local index 0 of a 1-frame segment. -/
theorem C6_effect_dims_witness :
    (apply_subtle_motion zeroTrig zeroTrig 0 frameUnit 0 1).dims = frameUnit.dims ∧
    (apply_ken_burns_effect zeroTrig zeroTrig 0 frameUnit 0 1).dims = frameUnit.dims ∧
    (apply_360_pan_effect frameUnit 0 1).dims = frameUnit.dims ∧
    ((frameUnit.rows = 0 ∨ 7 ≤ frameUnit.rows) →
      ∃ out, apply_tilt_shift_effect zeroTrig zeroTrig 0 zeroKernel frameUnit 0 1
          = some out ∧ out.dims = frameUnit.dims) ∧
    (1 ≤ frameUnit.rows → frameUnit.rows ≤ 6 →
      apply_tilt_shift_effect zeroTrig zeroTrig 0 zeroKernel frameUnit 0 1 = none) ∧
    (apply_zoom_in_effect zeroTrig zeroTrig 0 frameUnit 0 1).dims = frameUnit.dims ∧
    (apply_zoom_out_effect zeroTrig zeroTrig 0 frameUnit 0 1).dims = frameUnit.dims ∧
    (apply_dolly_zoom_effect zeroTrig zeroTrig 0 frameUnit 0 1).dims = frameUnit.dims ∧
    (apply_wave_effect zeroTrig zeroTrig 0 frameUnit 0 1).dims = frameUnit.dims ∧
    (apply_radial_blur_effect zeroTrig zeroTrig 0 frameUnit 0 1).dims = frameUnit.dims ∧
    (apply_rotation_effect zeroTrig zeroTrig 0 frameUnit 0 1).dims = frameUnit.dims ∧
    (apply_flip_effect zeroTrig zeroTrig 0 frameUnit 0 1).dims = frameUnit.dims :=
  C6_effect_dims zeroTrig zeroTrig 0 zeroKernel frameUnit 0 1
    (by decide) (by decide) (by decide)

/-- Counterexample refuting C6 as stated: on a frame of height 5 (width 4,
3 channels), `apply_tilt_shift_effect` produces no output frame at all
(Python raises `ZeroDivisionError` in the mask loop, since
`int(5*0.15) = 0`), although the claim's hypotheses `localTotal = 1 ≥ 1`
and `localIndex = 0 ∈ [0, 1)` hold. -/
theorem C6_counterexample :
    apply_tilt_shift_effect zeroTrig zeroTrig 0 zeroKernel frameH5 0 1 = none ∧
    frameH5.dims = (4, 5) ∧ (1 : ℤ) ≤ 1 ∧ (0 : ℤ) ≤ 0 ∧ (0 : ℤ) < 1 :=
  ⟨apply_tilt_shift_crash zeroTrig zeroTrig 0 zeroKernel frameH5 0 1
      (by decide) (by decide),
   rfl, by decide, by decide, by decide⟩

theorem foldl_append_map {α β : Type} (f : α → β) (l : List α) (acc : List β) :
    l.foldl (fun w x => w ++ [f x]) acc = acc ++ l.map f := by
  induction l generalizing acc with
  | nil => simp
  | cons a t ih => simp [ih]

theorem frameLoop_eq_map (sinQ cosQ : ℚ → ℚ) (piQ : ℚ) (gaussW : ℤ → ℤ → ℚ)
    (motion_types : List String) (total_frames : ℕ) (img : Frame) :
    frameLoop sinQ cosQ piQ gaussW motion_types total_frames img =
      (List.range total_frames).map
        (synthFrame sinQ cosQ piQ gaussW motion_types total_frames img) := by
  unfold frameLoop
  rw [foldl_append_map]
  simp

theorem synthFrame_none_plan (sinQ cosQ : ℚ → ℚ) (piQ : ℚ) (gaussW : ℤ → ℤ → ℚ)
    (total_frames : ℕ) (img : Frame) (frame_idx : ℕ)
    (h3 : img.channels = 3) (hb : ∀ y x c, img.px y x c < 256) :
    synthFrame sinQ cosQ piQ gaussW ["none"] total_frames img frame_idx = some img := by
  have he : ensureBGR img = img := by
    unfold ensureBGR
    rw [h3]
    norm_num
  have ha : astypeU8 img = img := by
    unfold astypeU8
    refine Frame.ext rfl rfl rfl ?_
    funext y x c
    exact Nat.mod_eq_of_lt (hb y x c)
  have hcs : currentSegment total_frames 1 frame_idx = 0 := by
    unfold currentSegment
    simp
  unfold synthFrame
  simp only [List.length_singleton, hcs]
  rw [show (["none"].getD 0 "none") = "none" from rfl]
  rw [show motion_functions sinQ cosQ piQ gaussW "none" = some none from rfl]
  simp [he, ha]

/-- Claim C7: with the effective plan `["none"]` every frame handed to the
video writer equals the (well-formed, 3-channel, 8-bit) resized source
frame: "none" is the identity transform. -/
theorem C7_none_identity (sinQ cosQ : ℚ → ℚ) (piQ : ℚ) (gaussW : ℤ → ℤ → ℚ)
    (total_frames : ℕ) (img : Frame)
    (h3 : img.channels = 3) (hb : ∀ y x c, img.px y x c < 256) :
    frameLoop sinQ cosQ piQ gaussW ["none"] total_frames img =
      List.replicate total_frames (some img) := by
  rw [frameLoop_eq_map]
  have h := fun fi =>
    synthFrame_none_plan sinQ cosQ piQ gaussW total_frames img fi h3 hb
  calc (List.range total_frames).map
        (synthFrame sinQ cosQ piQ gaussW ["none"] total_frames img)
      = (List.range total_frames).map (fun _ => some img) :=
        List.map_congr_left (fun fi _ => h fi)
    _ = List.replicate total_frames (some img) := by
        rw [List.map_const']
        rw [List.length_range]

/-- Witness for C7_none_identity: the hypotheses are satisfied by the
concrete 1×1 3-channel frame `frameUnit` with 2 frames. -/
theorem C7_none_identity_witness :
    frameLoop zeroTrig zeroTrig 0 zeroKernel ["none"] 2 frameUnit =
      List.replicate 2 (some frameUnit) :=
  C7_none_identity zeroTrig zeroTrig 0 zeroKernel 2 frameUnit rfl
    (fun _ _ _ => by simp [frameUnit])

/-- Claim C9: the frame written at position `i` of the per-image loop is a
function of the resized source and `i` alone — in this pure embedding of
the loop (each iteration starts from `img.copy()` and no effect writes to
the shared source), later frames never depend on earlier iterations. -/
theorem C9_frame_independence (sinQ cosQ : ℚ → ℚ) (piQ : ℚ) (gaussW : ℤ → ℤ → ℚ)
    (motion_types : List String) (total_frames : ℕ) (img : Frame) (i : ℕ)
    (h : i < total_frames) :
    (frameLoop sinQ cosQ piQ gaussW motion_types total_frames img)[i]? =
      some (synthFrame sinQ cosQ piQ gaussW motion_types total_frames img i) := by
  rw [frameLoop_eq_map]
  rw [List.getElem?_map]
  rw [List.getElem?_range h]
  rfl

/-- Witness for C9_frame_independence at frame index 0 of a 1-frame loop
over the concrete frame `frameUnit`. -/
theorem C9_frame_independence_witness :
    (frameLoop zeroTrig zeroTrig 0 zeroKernel ["none"] 1 frameUnit)[0]? =
      some (synthFrame zeroTrig zeroTrig 0 zeroKernel ["none"] 1 frameUnit 0) :=
  C9_frame_independence zeroTrig zeroTrig 0 zeroKernel ["none"] 1 frameUnit 0
    (by decide)

section BatchLemmas

variable {ε : Type} (env : BatchEnv ε)

variable (resizePx : Frame → ℕ × ℕ → ℕ → ℕ → ℕ → ℕ)

variable (sinQ cosQ : ℚ → ℚ) (piQ : ℚ) (gaussW : ℤ → ℤ → ℚ)

theorem foldlM_batchStep_skips (motion_types : List String) (target_size : ℕ × ℕ)
    (total_frames : ℕ) (quality : String) (video_duration : ℚ) (fps : ℕ)
    (total_images : ℕ) (l : List (ℕ × String)) (acc : List VideoInfo × List (ℕ × ℕ))
    (h : ∀ ip ∈ l, env.decode ip.2 = none) :
    l.foldlM (batchStep env resizePx sinQ cosQ piQ gaussW motion_types target_size
      total_frames quality video_duration fps total_images) acc = .ok acc := by
  induction l with
  | nil => rfl
  | cons x t ih =>
    rw [List.foldlM_cons]
    have hx : env.decode x.2 = none := h x (by simp)
    simp only [batchStep, hx]
    exact ih (fun ip hip => h ip (by simp [hip]))

theorem foldlM_batchStep_error (motion_types : List String) (target_size : ℕ × ℕ)
    (total_frames : ℕ) (quality : String) (video_duration : ℚ) (fps : ℕ)
    (total_images : ℕ) (l₁ l₂ : List (ℕ × String)) (item : ℕ × String)
    (acc : List VideoInfo × List (ℕ × ℕ)) (img0 : Frame) (e : BatchError ε)
    (h1 : ∀ ip ∈ l₁, env.decode ip.2 = none)
    (h2 : env.decode item.2 = some img0)
    (h3 : processImage env resizePx sinQ cosQ piQ gaussW motion_types target_size
        total_frames quality video_duration fps item.2 img0 = .error e) :
    (l₁ ++ item :: l₂).foldlM (batchStep env resizePx sinQ cosQ piQ gaussW
      motion_types target_size total_frames quality video_duration fps total_images)
      acc = .error e := by
  rw [List.foldlM_append]
  rw [foldlM_batchStep_skips env resizePx sinQ cosQ piQ gaussW motion_types
    target_size total_frames quality video_duration fps total_images l₁ acc h1]
  show (item :: l₂).foldlM (batchStep env resizePx sinQ cosQ piQ gaussW
      motion_types target_size total_frames quality video_duration fps total_images)
      acc = .error e
  rw [List.foldlM_cons]
  simp only [batchStep, h2, h3]
  rfl

theorem foldlM_batchStep_ok (motion_types : List String) (target_size : ℕ × ℕ)
    (total_frames : ℕ) (quality : String) (video_duration : ℚ) (fps : ℕ)
    (total_images : ℕ) :
    ∀ (l : List (ℕ × String)) (acc res : List VideoInfo × List (ℕ × ℕ)),
    l.foldlM (batchStep env resizePx sinQ cosQ piQ gaussW motion_types target_size
      total_frames quality video_duration fps total_images) acc = .ok res →
    res.2 = acc.2 ++ (l.filter (fun ip => (env.decode ip.2).isSome)).map
        (fun ip => (ip.1 + 1, total_images)) ∧
    res.1.length = acc.1.length +
      (l.filter (fun ip => (env.decode ip.2).isSome)).length := by
  intro l
  induction l with
  | nil =>
    intro acc res h
    rw [show acc = res from Except.ok.inj h]
    simp
  | cons x t ih =>
    intro acc res h
    rw [List.foldlM_cons] at h
    cases hx : env.decode x.2 with
    | none =>
      simp only [batchStep, hx] at h
      obtain ⟨ha, hb⟩ := ih acc res h
      refine ⟨?_, ?_⟩ <;> simp [List.filter_cons, hx, ha, hb]
    | some img0 =>
      cases hp : processImage env resizePx sinQ cosQ piQ gaussW motion_types
          target_size total_frames quality video_duration fps x.2 img0 with
      | error e =>
        simp only [batchStep, hx, hp] at h
        exact Except.noConfusion h
      | ok info =>
        simp only [batchStep, hx, hp] at h
        obtain ⟨ha, hb⟩ := ih _ res h
        refine ⟨?_, ?_⟩ <;> simp [List.filter_cons, hx, ha, hb] <;> omega

end BatchLemmas

theorem snd_mem_of_mem_enum {α : Type} {ip : ℕ × α} {l : List α}
    (h : ip ∈ l.enum) : ip.2 ∈ l := by
  obtain ⟨i, x⟩ := ip
  obtain ⟨-, -, h3⟩ := List.mem_enumFrom h
  rw [h3]
  exact List.getElem_mem _

/-- Claim C2: when the encoder collaborator fails — the output stream
cannot be opened or a frame write raises — the per-image loop of
`create_video_per_image_with_motion` has no handler, so the error aborts
the whole call and propagates to the caller; by contrast decode failures
only skip their image and the call still completes. -/
theorem C2_encoding_failure_propagates {ε : Type} (env : BatchEnv ε)
    (resizePx : Frame → ℕ × ℕ → ℕ → ℕ → ℕ → ℕ)
    (sinQ cosQ : ℚ → ℚ) (piQ : ℚ) (gaussW : ℤ → ℤ → ℚ)
    (motion_types_arg : MotionTypesArg) (video_duration : ℚ) (fps : ℕ)
    (quality_arg : String) (images₁ : List String) (p : String)
    (images₂ : List String) (img0 : Frame) (e : BatchError ε)
    (hskip : ∀ q ∈ images₁, env.decode q = none)
    (hdec : env.decode p = some img0)
    (hfail : processImage env resizePx sinQ cosQ piQ gaussW
        (effectiveMotionTypes motion_types_arg) (targetSize quality_arg)
        (pyInt (video_duration * (fps : ℚ))).toNat (effectiveQuality quality_arg)
        video_duration fps p img0 = .error e) :
    create_video_embed env resizePx sinQ cosQ piQ gaussW (images₁ ++ p :: images₂)
        motion_types_arg video_duration fps quality_arg = .error e ∧
    (∀ paths : List String, (∀ q ∈ paths, env.decode q = none) →
      ∃ res, create_video_embed env resizePx sinQ cosQ piQ gaussW paths
          motion_types_arg video_duration fps quality_arg = .ok res) := by
  constructor
  · simp only [create_video_embed]
    rw [if_neg (by simp)]
    rw [List.enum_append, List.enumFrom_cons]
    rw [foldlM_batchStep_error env resizePx sinQ cosQ piQ gaussW
      (effectiveMotionTypes motion_types_arg) (targetSize quality_arg)
      (pyInt (video_duration * (fps : ℚ))).toNat (effectiveQuality quality_arg)
      video_duration fps (images₁ ++ p :: images₂).length images₁.enum
      (List.enumFrom (images₁.length + 1) images₂) (images₁.length, p) ([], [])
      img0 e (fun ip hip => hskip ip.2 (snd_mem_of_mem_enum hip)) hdec hfail]
  · intro paths hnone
    by_cases hp0 : paths = []
    · subst hp0
      exact ⟨_, rfl⟩
    · simp only [create_video_embed]
      rw [if_neg hp0]
      rw [foldlM_batchStep_skips env resizePx sinQ cosQ piQ gaussW
        (effectiveMotionTypes motion_types_arg) (targetSize quality_arg)
        (pyInt (video_duration * (fps : ℚ))).toNat (effectiveQuality quality_arg)
        video_duration fps paths.length paths.enum ([], [])
        (fun ip hip => hnone ip.2 (snd_mem_of_mem_enum hip))]
      exact ⟨_, rfl⟩

/-- The amended claim C4: the progress callback is invoked exactly once per
successfully processed image (never per frame, never for a skipped image),
zero times on an empty batch, with strictly increasing first components,
and with arguments `(1, total)` … `(total, total)` when every image
succeeds; but its first argument is `img_idx + 1` — the image's 1-based
position in the input enumeration — which equals the number of completed
images only when no earlier image was skipped. -/
theorem C4_progress_callback {ε : Type} (env : BatchEnv ε)
    (resizePx : Frame → ℕ × ℕ → ℕ → ℕ → ℕ → ℕ)
    (sinQ cosQ : ℚ → ℚ) (piQ : ℚ) (gaussW : ℤ → ℤ → ℚ)
    (images : List String) (motion_types_arg : MotionTypesArg)
    (video_duration : ℚ) (fps : ℕ) (quality_arg : String) :
    create_video_embed env resizePx sinQ cosQ piQ gaussW [] motion_types_arg
        video_duration fps quality_arg = .ok (.bare [], []) ∧
    (∀ ret calls, create_video_embed env resizePx sinQ cosQ piQ gaussW images
        motion_types_arg video_duration fps quality_arg = .ok (ret, calls) →
      calls = (images.enum.filter (fun ip => (env.decode ip.2).isSome)).map
          (fun ip => (ip.1 + 1, images.length)) ∧
      List.Pairwise (fun a b : ℕ × ℕ => a.1 < b.1) calls ∧
      ((∀ q ∈ images, (env.decode q).isSome = true) →
        calls = (List.range images.length).map (fun i => (i + 1, images.length)))) := by
  refine ⟨rfl, ?_⟩
  intro ret calls h
  by_cases h0 : images = []
  · subst h0
    have h2 := Except.ok.inj h
    have hcalls : calls = [] := by
      have := congrArg Prod.snd h2
      simpa using this
    subst hcalls
    simp
  · simp only [create_video_embed] at h
    rw [if_neg h0] at h
    rcases hfold : images.enum.foldlM (batchStep env resizePx sinQ cosQ piQ gaussW
        (effectiveMotionTypes motion_types_arg) (targetSize quality_arg)
        (pyInt (video_duration * (fps : ℚ))).toNat (effectiveQuality quality_arg)
        video_duration fps images.length) ([], []) with e' | pr
    · rw [hfold] at h
      exact Except.noConfusion h
    · obtain ⟨created, cs⟩ := pr
      rw [hfold] at h
      have h2 := Except.ok.inj h
      have hcalls : calls = cs := by
        have := congrArg Prod.snd h2
        simpa using this.symm
      obtain ⟨ha, -⟩ := foldlM_batchStep_ok env resizePx sinQ cosQ piQ gaussW
        (effectiveMotionTypes motion_types_arg) (targetSize quality_arg)
        (pyInt (video_duration * (fps : ℚ))).toNat (effectiveQuality quality_arg)
        video_duration fps images.length images.enum ([], []) (created, cs) hfold
    -- ha : cs = [] ++ (filter …).map …
      have hA : calls = (images.enum.filter (fun ip => (env.decode ip.2).isSome)).map
          (fun ip => (ip.1 + 1, images.length)) := by
        rw [hcalls]
        simpa using ha
      have henum : List.Pairwise (fun a b : ℕ × String => a.1 < b.1) images.enum := by
        have hr := List.pairwise_lt_range images.length
        rw [← List.enum_map_fst images] at hr
        exact List.pairwise_map.mp hr
      refine ⟨hA, ?_, ?_⟩
      · rw [hA]
        exact List.pairwise_map.mpr
          ((henum.filter _).imp (fun hab => by omega))
      · intro hall
        rw [hA]
        rw [List.filter_eq_self.mpr
          (fun ip hip => hall ip.2 (snd_mem_of_mem_enum hip))]
        rw [show (List.range images.length) = images.enum.map Prod.fst from
          (List.enum_map_fst images).symm]
        rw [List.map_map]
        rfl

/-- Witness for C2_encoding_failure_propagates: a concrete batch of two
images where the first fails to decode and the writer of the second cannot
open its output stream. -/
theorem C2_encoding_failure_propagates_witness :
    create_video_embed envC2 zeroResize zeroTrig zeroTrig 0 zeroKernel
        (["bad"] ++ "good" :: []) (.list ["none"]) 1 1 "1080p"
      = .error (.enc ()) ∧
    (∀ paths : List String, (∀ q ∈ paths, envC2.decode q = none) →
      ∃ res, create_video_embed envC2 zeroResize zeroTrig zeroTrig 0 zeroKernel
          paths (.list ["none"]) 1 1 "1080p" = .ok res) :=
  C2_encoding_failure_propagates envC2 zeroResize zeroTrig zeroTrig 0 zeroKernel
    (.list ["none"]) 1 1 "1080p" ["bad"] "good" [] frameUnit (.enc ())
    (fun q hq => by
      rw [show q = "bad" from by simpa using hq]
      rfl)
    rfl rfl

theorem except_ok_bind {ε α β : Type} (a : α) (f : α → Except ε β) :
    (Except.ok a >>= f) = f a := rfl

theorem foldlM_unit_ok {ε α : Type} (f : Unit → α → Except ε Unit)
    (h : ∀ a, f () a = .ok ()) (l : List α) : l.foldlM f () = .ok () := by
  induction l with
  | nil => rfl
  | cons a t ih =>
    rw [List.foldlM_cons, h a]
    exact ih

theorem writeFrames_fixture_ok {ε : Type} (env : BatchEnv ε)
    (hw : ∀ p f, env.writeFrame p f = .ok ()) (path : String)
    (total_frames : ℕ) (img : Frame)
    (h3 : img.channels = 3) (hb : ∀ y x c, img.px y x c < 256) :
    writeFrames env zeroTrig zeroTrig 0 zeroKernel path ["none"] total_frames img
      = .ok () := by
  unfold writeFrames
  apply foldlM_unit_ok
  intro a
  rw [synthFrame_none_plan zeroTrig zeroTrig 0 zeroKernel total_frames img a h3 hb]
  simp [hw]

theorem processImage_fixture_ok {ε : Type} (env : BatchEnv ε)
    (hopen : ∀ p, env.openWriter p = .ok ())
    (hw : ∀ p f, env.writeFrame p f = .ok ())
    (target_size : ℕ × ℕ) (total_frames : ℕ) (quality : String)
    (video_duration : ℚ) (fps : ℕ) (img_path : String) :
    processImage env zeroResize zeroTrig zeroTrig 0 zeroKernel ["none"]
        target_size total_frames quality video_duration fps img_path frameUnit
      = .ok { path := outputPath img_path ["none"] quality,
              filename := outputPath img_path ["none"] quality,
              duration_seconds := video_duration, fps := fps, quality := quality,
              resolution := target_size, motion_effects := ["none"] } := by
  simp only [processImage]
  rw [hopen]
  rw [writeFrames_fixture_ok env hw _ total_frames _ rfl
    (fun _ _ _ => by simp [cv2resize, zeroResize])]

/-- Claim C3 is refuted by the code: with no input images the function
returns the bare list `[]` (converter.py line 311) — not the
`(videos, metadata)` pair produced by every non-empty run (line 432) — so
the return does NOT have the same shape and carries no
`videos_created = 0` metadata; callers that unpack
`videos, metadata = create_video_per_image_with_motion(...)` (app.py line
62, test_conversion.py line 31) raise `ValueError` on an empty input set. -/
theorem C3_empty_input_bare_return :
    create_video_embed envOk zeroResize zeroTrig zeroTrig 0 zeroKernel []
        (.list ["subtle"]) 5 10 "1080p" = .ok (.bare [], []) ∧
    ConvReturn.isPair (.bare []) = false ∧
    (∃ r, create_video_embed envOk zeroResize zeroTrig zeroTrig 0 zeroKernel
        ["img1"] (.list ["none"]) 1 1 "1080p" = .ok r ∧ r.1.isPair = true) := by
  refine ⟨rfl, rfl, ?_⟩
  have hpi := processImage_fixture_ok envOk (fun _ => rfl) (fun _ _ => rfl)
    (targetSize "1080p") ((pyInt ((1 : ℚ) * ((1 : ℕ) : ℚ))).toNat)
    (effectiveQuality "1080p") 1 1 "img1"
  refine ⟨(.pair [infoImg1]
    { videos_created := 1, quality := effectiveQuality "1080p",
      motion_effects := ["none"] }, [(1, 1)]), ?_, rfl⟩
  simp only [create_video_embed]
  rw [if_neg (by simp)]
  rw [show (["img1"].enum) = [(0, "img1")] from rfl]
  rw [show effectiveMotionTypes (.list ["none"]) = ["none"] from rfl]
  rw [List.foldlM_cons]
  simp only [batchStep, show envOk.decode "img1" = some frameUnit from rfl, hpi,
    except_ok_bind, List.foldlM_nil]
  rfl

/-- Counterexample refuting C4 as stated: in a concrete 2-image batch whose
first image fails to decode, the single completed image triggers the
callback with arguments `(2, 2)` — the input position — although only 1
image has completed, so `completed_count` is not the number of images
completed so far. -/
theorem C4_counterexample :
    (∃ info meta, create_video_embed envC4 zeroResize zeroTrig zeroTrig 0 zeroKernel
        ["skipped", "ok1"] (.list ["none"]) 1 1 "1080p"
      = .ok (.pair [info] meta, [(2, 2)]) ∧ meta.videos_created = 1) ∧
    (2 : ℕ) ≠ 1 := by
  refine ⟨?_, by decide⟩
  have hpi := processImage_fixture_ok envC4 (fun _ => rfl) (fun _ _ => rfl)
    (targetSize "1080p") ((pyInt ((1 : ℚ) * ((1 : ℕ) : ℚ))).toNat)
    (effectiveQuality "1080p") 1 1 "ok1"
  refine ⟨infoOk1,
    { videos_created := 1, quality := effectiveQuality "1080p",
      motion_effects := ["none"] }, ?_, rfl⟩
  simp only [create_video_embed]
  rw [if_neg (by simp)]
  rw [show (["skipped", "ok1"].enum) = [(0, "skipped"), (1, "ok1")] from rfl]
  rw [show effectiveMotionTypes (.list ["none"]) = ["none"] from rfl]
  rw [List.foldlM_cons]
  simp only [batchStep, show envC4.decode "skipped" = none from rfl, except_ok_bind]
  rw [List.foldlM_cons]
  simp only [batchStep, show envC4.decode "ok1" = some frameUnit from rfl, hpi,
    except_ok_bind, List.foldlM_nil]
  rfl

end Converter
